import Mathlib

/-!
Verification of the Workers Builds → Slack notification pipeline.

The definitions below are a shallow embedding of the worker's
normalization, enrichment, error-extraction and formatting functions
(`normalizeBuildState`, `isProductionBranch`, `extractBuildError`,
`formatDurationMs`, `fetchAllBuildLogs`, `buildSlackBlocks` and the
`queue` batch handler).  JavaScript strings are modeled as `String`,
nullable values as `Option`, and JS truthiness is made explicit.
External collaborators (the `Date.parse` routine and the HTTP fetches)
are modeled as explicit function parameters / oracles.
-/

namespace WorkersBuilds

/-- Closed set of normalized build states (the `BuildState` union type). -/
inductive BuildState where
  | succeeded
  | failed
  | canceled
  | unknown
deriving DecidableEq

/-- Models `safeStr` applied to a possibly-missing string field:
a missing (or non-string) value becomes the empty string. -/
def ostr (o : Option String) : String := o.getD ""

/-- JS truthiness of a nullable string: `null` and `""` are falsy. -/
def truthyS : Option String → Bool
  | none => false
  | some s => s != ""

/-- JS `a || b` for strings (first operand is kept unless it is falsy). -/
def jsOr (a b : String) : String := if a = "" then b else a

/-- Lower-casing, codepoint by codepoint (models `toLowerCase`). -/
def strLower (s : String) : String := ⟨s.data.map Char.toLower⟩

/-- Prefix test on char lists. -/
def isPre : List Char → List Char → Bool
  | [], _ => true
  | _ :: _, [] => false
  | a :: as, b :: bs => a == b && isPre as bs

/-- Substring occurrence test on char lists. -/
def hasSub (needle : List Char) : List Char → Bool
  | [] => needle.isEmpty
  | c :: rest => isPre needle (c :: rest) || hasSub needle rest

/-- Models JS `s.includes(pat)`. -/
def strContains (s pat : String) : Bool := hasSub pat.toList s.toList

/-- Models JS `s.startsWith(pat)`. -/
def strStarts (s pat : String) : Bool := isPre pat.toList s.toList

/-- Build-trigger git metadata (all fields optional at runtime). -/
structure TriggerMeta where
  buildTriggerSource : Option String := none
  branch : Option String := none
  commitHash : Option String := none
  commitMessage : Option String := none
  author : Option String := none
  repoName : Option String := none
  providerAccountName : Option String := none
  providerType : Option String := none

/-- Event payload (all fields optional at runtime). -/
structure Payload where
  buildUuid : Option String := none
  status : Option String := none
  buildOutcome : Option String := none
  createdAt : Option String := none
  initializingAt : Option String := none
  runningAt : Option String := none
  stoppedAt : Option String := none
  buildTriggerMetadata : Option TriggerMeta := none

/-- Event source descriptor. -/
structure SourceInfo where
  workerName : Option String := none

/-- Event metadata envelope. -/
structure EventMeta where
  accountId : Option String := none

/-- A raw inbound build event; every part may be missing at runtime. -/
structure CFEvent where
  type : Option String := none
  source : Option SourceInfo := none
  payload : Option Payload := none
  metadata : Option EventMeta := none

/-- The lower-cased `type` field, `safeStr(event.type).toLowerCase()`. -/
def typeLowerOf (e : CFEvent) : String := strLower (ostr e.type)

/-- The lower-cased `payload?.buildOutcome` field. -/
def outcomeLowerOf (e : CFEvent) : String :=
  strLower (ostr (e.payload.bind Payload.buildOutcome))

/-- The lower-cased `payload?.status` field. -/
def statusLowerOf (e : CFEvent) : String :=
  strLower (ostr (e.payload.bind Payload.status))

/-- The cancel-word vocabulary set. -/
def canceledVals : List String := ["canceled", "cancelled", "canceled_build", "cancelled_build"]

/-- The fail-word vocabulary set. -/
def failedVals : List String := ["failed", "failure", "error"]

/-- The success-word vocabulary set. -/
def successVals : List String := ["success", "succeeded", "ok"]

/-- The state normalizer `normalizeBuildState`: prefer the event `type`,
then fall back to outcome/status vocabulary membership. -/
def normalizeBuildState (e : CFEvent) : BuildState :=
  if strContains (typeLowerOf e) "succeeded" then .succeeded
  else if strContains (typeLowerOf e) "failed" then .failed
  else if strContains (typeLowerOf e) "canceled" || strContains (typeLowerOf e) "cancelled" then .canceled
  else if canceledVals.contains (outcomeLowerOf e) || canceledVals.contains (statusLowerOf e) then .canceled
  else if failedVals.contains (outcomeLowerOf e) || failedVals.contains (statusLowerOf e) then .failed
  else if successVals.contains (outcomeLowerOf e) || successVals.contains (statusLowerOf e) then .succeeded
  else .unknown

/-- Spec-side reading of the vocabulary fallback in which the three sets
are tried in order cancel → fail → success, a set matching when either
the outcome or the status belongs to it (set priority dominates). -/
def vocabClassifySetFirst (outcome status : String) : BuildState :=
  if canceledVals.contains outcome || canceledVals.contains status then .canceled
  else if failedVals.contains outcome || failedVals.contains status then .failed
  else if successVals.contains outcome || successVals.contains status then .succeeded
  else .unknown

/-- Spec-side reading of the claim in which the outcome field is fully
classified before the status field is consulted (field priority
dominates set priority). -/
def vocabClassifyOutcomeFirst (outcome status : String) : BuildState :=
  if canceledVals.contains outcome then .canceled
  else if failedVals.contains outcome then .failed
  else if successVals.contains outcome then .succeeded
  else if canceledVals.contains status then .canceled
  else if failedVals.contains status then .failed
  else if successVals.contains status then .succeeded
  else .unknown

/-- An event whose `type` encodes no outcome, whose outcome says `failed`
and whose status says `cancelled`. -/
def ambiguousFailCancelEv : CFEvent :=
  { type := some "cf.workersBuilds.worker.build.finished",
    payload := some { buildOutcome := some "failed", status := some "cancelled" } }

/-- C1: any event whose lower-cased `type` contains `"succeeded"` is
normalized to `succeeded`, irrespective of `buildOutcome` and `status`;
and the normalizer is total, always producing one of the four states. -/
theorem claim1_normalize_succeeded (e : CFEvent)
    (h : strContains (typeLowerOf e) "succeeded" = true) :
    normalizeBuildState e = .succeeded ∧
      ∀ e2 : CFEvent, normalizeBuildState e2 = .succeeded ∨ normalizeBuildState e2 = .failed ∨
        normalizeBuildState e2 = .canceled ∨ normalizeBuildState e2 = .unknown := by
  constructor
  · simp [normalizeBuildState, h]
  · intro e2
    cases hn : normalizeBuildState e2 <;> simp

/-- Witness for C1 on a concrete succeeded event carrying a contradictory
outcome and status. -/
theorem claim1_witness :
    normalizeBuildState
      { type := some "cf.workersBuilds.worker.build.succeeded",
        payload := some { buildOutcome := some "fail", status := some "error" } } = .succeeded :=
  (claim1_normalize_succeeded _ (by decide)).1

/-- C2 (amended): for an event whose lower-cased `type` contains none of
the outcome keywords, the normalizer agrees with the set-first vocabulary
classification (cancel-words, then fail-words, then success-words, a set
matching when the outcome or the status belongs to it); in particular
outcome `failed` with status `cancelled` normalizes to `canceled`. -/
theorem claim2_vocab_fallback (e : CFEvent)
    (h1 : strContains (typeLowerOf e) "succeeded" = false)
    (h2 : strContains (typeLowerOf e) "failed" = false)
    (h3 : strContains (typeLowerOf e) "canceled" = false)
    (h4 : strContains (typeLowerOf e) "cancelled" = false) :
    normalizeBuildState e = vocabClassifySetFirst (outcomeLowerOf e) (statusLowerOf e) ∧
      normalizeBuildState ambiguousFailCancelEv = .canceled := by
  refine ⟨?_, by decide⟩
  simp [normalizeBuildState, vocabClassifySetFirst, h1, h2, h3, h4]

/-- Witness for C2 on a concrete ambiguous event. -/
theorem claim2_witness :
    normalizeBuildState
        { type := some "cf.workersBuilds.worker.build.finished",
          payload := some { buildOutcome := some "cancelled", status := some "stopped" } } =
      vocabClassifySetFirst "cancelled" "stopped" :=
  (claim2_vocab_fallback _ (by decide) (by decide) (by decide) (by decide)).1

/-- Counterexample for C2 as stated: on the event with ambiguous type,
outcome `failed` and status `cancelled`, the code does not follow the
outcome-before-status rule — that rule would classify the outcome first
and give `failed`, while `normalizeBuildState` returns `canceled`,
because the cancel vocabulary set is consulted (for both fields) before
the fail set. -/
theorem claim2_counterexample :
    ¬ (normalizeBuildState ambiguousFailCancelEv =
        vocabClassifyOutcomeFirst (outcomeLowerOf ambiguousFailCancelEv)
          (statusLowerOf ambiguousFailCancelEv)) := by
  decide

/-- The literal production-branch vocabulary. -/
def prodBranchNames : List String := ["main", "master", "production", "prod"]

/-- `isProductionBranch`: lower-case the (possibly missing) branch name,
treat a falsy result as production, otherwise test vocabulary membership. -/
def isProductionBranch (branch : Option String) : Bool :=
  let b := strLower (ostr branch)
  if b = "" then true
  else prodBranchNames.contains b

/-- Lower-casing a string yields the empty string only for the empty string. -/
theorem strLower_eq_empty_iff (s : String) : strLower s = "" ↔ s = "" := by
  constructor
  · intro h
    have hdata : (strLower s).data = [] := by rw [h]
    have : s.data.map Char.toLower = [] := hdata
    have hnil : s.data = [] := by
      cases hs : s.data with
      | nil => rfl
      | cons c cs => rw [hs] at this; simp at this
    cases s with
    | mk d => cases hnil; rfl
  · intro h; rw [h]; rfl

/-- List membership matches the boolean `contains` test for strings. -/
theorem contains_iff_mem (l : List String) (s : String) :
    l.contains s = true ↔ s ∈ l := by
  induction l with
  | nil => simp
  | cons a rest ih =>
    simp only [List.contains_cons, Bool.or_eq_true, beq_iff_eq, List.mem_cons, ih]

/-- C6 (amended): a branch classifies as production exactly when its
lower-casing is in the production vocabulary, or the branch is absent,
or the branch is the empty string (both falsy branches default to
production); `main` and `master` classify as production, `feature/x`
does not. -/
theorem claim6_production_branch (b : Option String) :
    (isProductionBranch b = true ↔
        (strLower (ostr b) ∈ prodBranchNames ∨ b = none ∨ b = some "")) ∧
      isProductionBranch (some "main") = true ∧
      isProductionBranch (some "master") = true ∧
      isProductionBranch (some "feature/x") = false := by
  refine ⟨?_, by decide, by decide, by decide⟩
  cases b with
  | none => decide
  | some s =>
    by_cases hse : s = ""
    · subst hse; decide
    · have hs : ¬ strLower s = "" := fun h => hse ((strLower_eq_empty_iff s).mp h)
      simp only [isProductionBranch, ostr, Option.getD_some]
      rw [if_neg hs, contains_iff_mem]
      simp [hse, hs]

/-- Witness for C6 at a concrete branch. -/
theorem claim6_witness :
    isProductionBranch (some "Main") = true ∧
      (strLower (ostr (some "Main")) ∈ prodBranchNames ∨ (some "Main" : Option String) = none ∨
        (some "Main" : Option String) = some "") :=
  ⟨(claim6_production_branch (some "Main")).1.mpr (Or.inl (by decide)),
   Or.inl (by decide)⟩

/-- Counterexample for C6 as stated: an event carrying the empty string
as its branch name is classified as production, although the empty
string does not case-insensitively equal any of `main`, `master`,
`production`, `prod`, and the branch is not absent. -/
theorem claim6_counterexample :
    ¬ (isProductionBranch (some "") = true ↔
        (strLower (ostr (some "")) ∈ prodBranchNames ∨ (some "" : Option String) = none)) := by
  decide

/-- One page of the logs endpoint: `result.lines` (already projected to
their text components), the `truncated` flag, and an optional cursor. -/
structure LogsPage where
  lines : List String := []
  truncated : Bool := false
  cursor : Option String := none

/-- The non-empty line texts kept from one page
(`lines.map(l => l[1]).filter(Boolean)`). -/
def pageLines (r : LogsPage) : List String := r.lines.filter (fun s => s != "")

/-- The body of the `fetchAllBuildLogs` pagination loop.  The logs API is
modeled as a function from the optional request cursor to the response
page; `fuel` bounds the number of requests so the loop is a total
function, `none` meaning the fuel ran out before the loop stopped.  On
termination it returns the accumulated lines together with the number of
pages requested. -/
def fetchLogsLoop (api : Option String → LogsPage) :
    Nat → Option String → List String → Nat → Option (List String × Nat)
  | 0, _, _, _ => none
  | fuel + 1, cursor, acc, pages =>
    let data := api cursor
    let acc2 := acc ++ pageLines data
    if data.truncated = false then some (acc2, pages + 1)
    else if ostr data.cursor = "" then some (acc2, pages + 1)
    else fetchLogsLoop api fuel (some (ostr data.cursor)) acc2 (pages + 1)

/-- `fetchAllBuildLogs`: page from the start (no cursor) until a response
is not truncated or supplies no usable cursor. -/
def fetchAllBuildLogs (api : Option String → LogsPage) (fuel : Nat) :
    Option (List String × Nat) :=
  fetchLogsLoop api fuel none [] 0

/-- C3: for any logs API whose first page is truncated with a non-empty
cursor and whose second page is truncated but supplies an empty cursor,
the pagination loop stops after exactly two requests, returning the two
pages' kept lines appended in order; and for any API whose first page is
not truncated, it stops after one request. -/
theorem claim3_pagination (api : Option String → LogsPage) (fuel : Nat)
    (hfuel : 2 ≤ fuel)
    (h1 : (api none).truncated = true)
    (h2 : ostr (api none).cursor ≠ "")
    (h3 : (api (some (ostr (api none).cursor))).truncated = true)
    (h4 : ostr (api (some (ostr (api none).cursor))).cursor = "") :
    fetchAllBuildLogs api fuel =
        some (pageLines (api none) ++ pageLines (api (some (ostr (api none).cursor))), 2) ∧
      ∀ (api2 : Option String → LogsPage) (f2 : Nat), (api2 none).truncated = false → 0 < f2 →
        fetchAllBuildLogs api2 f2 = some (pageLines (api2 none), 1) := by
  constructor
  · obtain ⟨f, rfl⟩ : ∃ f, fuel = f + 2 := ⟨fuel - 2, by omega⟩
    show fetchLogsLoop api (f + 2) none [] 0 = _
    rw [show f + 2 = (f + 1) + 1 from rfl]
    unfold fetchLogsLoop
    simp only [h1, Bool.true_eq_false, if_false, if_neg h2]
    unfold fetchLogsLoop
    simp only [h3, Bool.true_eq_false, if_false, if_pos h4, List.nil_append]
  · intro api2 f2 hnt hf2
    obtain ⟨f, rfl⟩ : ∃ f, f2 = f + 1 := ⟨f2 - 1, by omega⟩
    show fetchLogsLoop api2 (f + 1) none [] 0 = _
    unfold fetchLogsLoop
    simp only [hnt]
    simp

/-- Witness for C3: a concrete two-page mock API whose second page is
truncated with an empty cursor. -/
theorem claim3_witness :
    fetchAllBuildLogs
        (fun c =>
          match c with
          | none => { lines := ["line a", "", "line b"], truncated := true, cursor := some "c1" }
          | some _ => { lines := ["line c"], truncated := true, cursor := some "" })
        5 =
      some (["line a", "line b", "line c"], 2) := by
  have h := claim3_pagination
    (fun c =>
      match c with
      | none => { lines := ["line a", "", "line b"], truncated := true, cursor := some "c1" }
      | some _ => { lines := ["line c"], truncated := true, cursor := some "" })
    5 (by omega) (by decide) (by decide) (by decide) (by decide)
  exact h.1

/-- Whitespace-trimming on both ends (models JS `trim`). -/
def strTrim (s : String) : String :=
  ⟨((s.data.dropWhile Char.isWhitespace).reverse.dropWhile Char.isWhitespace).reverse⟩

/-- The leading-whitespace stripper used by the anchored patterns. -/
def dropWs (s : String) : String := ⟨s.data.dropWhile Char.isWhitespace⟩

/-- Prefix of the first `n` codepoints (models `slice(0, n)`). -/
def strTake (s : String) (n : Nat) : String := ⟨s.data.take n⟩

/-- If `a` is a prefix of the list, the remainder after it. -/
def dropPre : List Char → List Char → Option (List Char)
  | [], s => some s
  | _ :: _, [] => none
  | a :: as, c :: cs => if a == c then dropPre as cs else none

/-- Matches `.*` (no newline) followed by the literal `b`. -/
def dotStarThen (b : List Char) : List Char → Bool
  | [] => isPre b []
  | c :: rest => isPre b (c :: rest) || (c != '\n' && dotStarThen b rest)

/-- Matches the literal `a`, then `.*` (no newline), then the literal `b`,
at the start of the list. -/
def twoPartAt (a b : List Char) (s : List Char) : Bool :=
  match dropPre a s with
  | some r => dotStarThen b r
  | none => false

/-- Unanchored search for `a`, then `.*`, then `b`. -/
def twoPartSearch (a b : List Char) : List Char → Bool
  | [] => twoPartAt a b []
  | c :: rest => twoPartAt a b (c :: rest) || twoPartSearch a b rest

/-- Models the regex test `/a.*b/` on a string. -/
def twoPartMatch (a b s : String) : Bool := twoPartSearch a.toList b.toList s.toList

/-- Matches `failed:` followed by one whitespace char at the start. -/
def failedWsAt (s : List Char) : Bool :=
  match dropPre "failed:".toList s with
  | some (c :: _) => c.isWhitespace
  | _ => false

/-- Unanchored search for `failed:` followed by whitespace
(models the regex test of `/failed:\s/`). -/
def hasFailedWs : List Char → Bool
  | [] => false
  | c :: rest => failedWsAt (c :: rest) || hasFailedWs rest

/-- A stack-trace frame line (`startsWith('at ')` after trimming). -/
def isStackLine (line : String) : Bool := strStarts line "at "

/-- The ordered strong failure-indicator pattern list of
`extractBuildError`, evaluated on a trimmed log line.  The `/i` patterns
are tested against the lower-cased line. -/
def strongMatch (line : String) : Bool :=
  let low := strLower line
  strContains low "no config file found" ||
  twoPartMatch "entry-point file " " was not found" low ||
  strContains low "module not found" ||
  strContains low "cannot find module" ||
  strContains low "command failed" ||
  hasFailedWs low.data ||
  strStarts (dropWs low) "[error]" ||
  strStarts (dropWs low) "error:" ||
  strStarts (dropWs line) "✘"

/-- Clamp the snippet to 700 codepoints, appending the `…` marker when
the clamp shortens it (models `msg.length > 700 ? msg.slice(0,700)+… : msg`). -/
def clamp700 (msg : String) : String :=
  if msg.length > 700 then strTake msg 700 ++ "…" else msg

/-- Extend a matched line with the following log line when that line is
non-empty, not a stack frame and under 200 chars. -/
def withNext (line : String) (next : Option String) : String :=
  match next with
  | none => line
  | some n =>
    let nt := strTrim n
    if nt != "" && !isStackLine nt && nt.length < 200 then line ++ "\n" ++ nt else line

/-- The backwards scan of `extractBuildError` looking for a strong
failure indicator.  The list is the log in reverse order; `next` carries
the line that follows the current one in the original order. -/
def scanStrong : List String → Option String → Option String
  | [], _ => none
  | l :: rest, next =>
    if strTrim l = "" then scanStrong rest (some l)
    else if isStackLine (strTrim l) then scanStrong rest (some l)
    else if strongMatch (strTrim l) then some (clamp700 (withNext (strTrim l) next))
    else scanStrong rest (some l)

/-- The fallback backwards scan for the last non-empty non-stack line. -/
def scanFallback : List String → Option String
  | [] => none
  | l :: rest =>
    if strTrim l = "" then scanFallback rest
    else if isStackLine (strTrim l) then scanFallback rest
    else some (clamp700 (strTrim l))

/-- `extractBuildError`: empty logs give the fixed no-logs text; otherwise
scan backwards for a strong indicator, fall back to the last non-empty
non-stack line, finally the fixed build-failed text. -/
def extractBuildError (logs : List String) : String :=
  if logs.isEmpty then "No logs available"
  else
    match scanStrong logs.reverse none with
    | some msg => msg
    | none =>
      match scanFallback logs.reverse with
      | some msg => msg
      | none => "Build failed"

/-- A string is empty exactly when its char data is. -/
theorem str_eq_empty_iff (s : String) : s = "" ↔ s.data = [] := by
  constructor
  · intro h; subst h; rfl
  · intro h
    cases s with
    | mk d => cases h; rfl

/-- Appending char data distributes over string append. -/
theorem data_append (a b : String) : (a ++ b).data = a.data ++ b.data := rfl

/-- The clamp never produces the empty string from a non-empty one. -/
theorem clamp700_ne_empty (m : String) (h : m ≠ "") : clamp700 m ≠ "" := by
  unfold clamp700
  split
  · intro hc
    have := (str_eq_empty_iff _).mp hc
    rw [data_append] at this
    simp at this
  · exact h

/-- The clamp's output never exceeds 700 codepoints plus the marker. -/
theorem clamp700_length (m : String) : (clamp700 m).length ≤ 701 := by
  unfold clamp700
  split
  · show ((strTake m 700 ++ "…") : String).data.length ≤ 701
    rw [data_append]
    simp [strTake]
  · omega

/-- When the clamp output exceeds 700 codepoints, it is a 700-codepoint
prefix followed by the truncation marker. -/
theorem clamp700_marker (m : String) (h : 700 < (clamp700 m).length) :
    ∃ p, clamp700 m = p ++ "…" ∧ p.length = 700 := by
  unfold clamp700 at h ⊢
  split at h
  · rename_i hlong
    rw [if_pos hlong]
    refine ⟨strTake m 700, rfl, ?_⟩
    show (strTake m 700).data.length = 700
    simp [strTake]
    omega
  · omega

/-- Every hit of the strong scan is the clamp of a non-empty message. -/
theorem scanStrong_some (ls : List String) :
    ∀ next msg, scanStrong ls next = some msg → ∃ m, m ≠ "" ∧ msg = clamp700 m := by
  induction ls with
  | nil => intro next msg h; simp [scanStrong] at h
  | cons l rest ih =>
    intro next msg h
    unfold scanStrong at h
    split at h
    · exact ih _ _ h
    · split at h
      · exact ih _ _ h
      · split at h
        · rename_i hline _ _
          refine ⟨withNext (strTrim l) next, ?_, by simpa using h.symm⟩
          unfold withNext
          match next with
          | none => exact hline
          | some n =>
            simp only
            split
            · intro hc
              have := (str_eq_empty_iff _).mp hc
              rw [data_append, data_append] at this
              simp at this
            · exact hline
        · exact ih _ _ h

/-- Every hit of the fallback scan is the clamp of a non-empty line. -/
theorem scanFallback_some (ls : List String) :
    ∀ msg, scanFallback ls = some msg → ∃ m, m ≠ "" ∧ msg = clamp700 m := by
  induction ls with
  | nil => intro msg h; simp [scanFallback] at h
  | cons l rest ih =>
    intro msg h
    unfold scanFallback at h
    split at h
    · exact ih _ h
    · split at h
      · exact ih _ h
      · rename_i hline _
        exact ⟨strTrim l, hline, by simpa using h.symm⟩

/-- If every line trims to empty or to a stack frame, the strong scan
finds nothing. -/
theorem scanStrong_none (ls : List String)
    (h : ∀ l ∈ ls, strTrim l = "" ∨ isStackLine (strTrim l) = true) :
    ∀ next, scanStrong ls next = none := by
  induction ls with
  | nil => intro next; rfl
  | cons l rest ih =>
    intro next
    have hl := h l (List.mem_cons_self l rest)
    have hrest : ∀ l2 ∈ rest, strTrim l2 = "" ∨ isStackLine (strTrim l2) = true :=
      fun l2 hm => h l2 (List.mem_cons_of_mem l hm)
    unfold scanStrong
    by_cases he : strTrim l = ""
    · rw [if_pos he]; exact ih hrest _
    · have hst : isStackLine (strTrim l) = true := by
        rcases hl with hl | hl
        · exact absurd hl he
        · exact hl
      rw [if_neg he, if_pos hst]; exact ih hrest _

/-- If every line trims to empty or to a stack frame, the fallback scan
finds nothing. -/
theorem scanFallback_none (ls : List String)
    (h : ∀ l ∈ ls, strTrim l = "" ∨ isStackLine (strTrim l) = true) :
    scanFallback ls = none := by
  induction ls with
  | nil => rfl
  | cons l rest ih =>
    have hl := h l (List.mem_cons_self l rest)
    have hrest : ∀ l2 ∈ rest, strTrim l2 = "" ∨ isStackLine (strTrim l2) = true :=
      fun l2 hm => h l2 (List.mem_cons_of_mem l hm)
    unfold scanFallback
    by_cases he : strTrim l = ""
    · rw [if_pos he]; exact ih hrest
    · have hst : isStackLine (strTrim l) = true := by
        rcases hl with hl | hl
        · exact absurd hl he
        · exact hl
      rw [if_neg he, if_pos hst]; exact ih hrest

/-- C4: the error extractor is total and always returns non-empty text;
on the empty log it returns exactly the fixed no-logs text; and on a
non-empty log in which every line trims to nothing or to a stack frame
(so no strong indicator can match and no usable fallback line exists) it
returns the fixed build-failed text. -/
theorem claim4_extract_total (logs : List String) :
    extractBuildError logs ≠ "" ∧
      extractBuildError [] = "No logs available" ∧
      (logs ≠ [] → (∀ l ∈ logs, strTrim l = "" ∨ isStackLine (strTrim l) = true) →
        extractBuildError logs = "Build failed") := by
  refine ⟨?_, by decide, ?_⟩
  · unfold extractBuildError
    split
    · decide
    · rcases hs : scanStrong logs.reverse none with _ | msg
      · rcases hf : scanFallback logs.reverse with _ | msg
        · simp only [hs, hf]
          decide
        · obtain ⟨m, hm, rfl⟩ := scanFallback_some _ _ hf
          simp only [hs, hf]
          exact clamp700_ne_empty m hm
      · obtain ⟨m, hm, rfl⟩ := scanStrong_some _ _ _ hs
        simp only [hs]
        exact clamp700_ne_empty m hm
  · intro hne hall
    have hall2 : ∀ l ∈ logs.reverse, strTrim l = "" ∨ isStackLine (strTrim l) = true := by
      intro l hm
      exact hall l (List.mem_reverse.mp hm)
    unfold extractBuildError
    rw [if_neg (by simpa [List.isEmpty_iff] using hne)]
    rw [scanStrong_none _ hall2 none, scanFallback_none _ hall2]

/-- Witness for C4: a log of only stack frames and blank lines yields the
fixed build-failed text, and the empty log yields the no-logs text. -/
theorem claim4_witness :
    extractBuildError ["at foo.js:1:2", "   ", "at bar.js:3:4"] = "Build failed" ∧
      extractBuildError [] = "No logs available" :=
  ⟨(claim4_extract_total ["at foo.js:1:2", "   ", "at bar.js:3:4"]).2.2 (by decide) (by decide),
   (claim4_extract_total []).2.1⟩

/-- C5: the extracted snippet never exceeds the configured maximum of 700
codepoints plus the one-codepoint truncation marker, and whenever the
clamp was exercised the snippet is a 700-codepoint prefix with the
marker appended. -/
theorem claim5_extract_clamped (logs : List String) :
    (extractBuildError logs).length ≤ 701 ∧
      (700 < (extractBuildError logs).length →
        ∃ p, extractBuildError logs = p ++ "…" ∧ p.length = 700) := by
  unfold extractBuildError
  split
  · refine ⟨by decide, ?_⟩
    intro h
    exact absurd h (by decide)
  · rcases hs : scanStrong logs.reverse none with _ | msg
    · rcases hf : scanFallback logs.reverse with _ | msg
      · refine ⟨by decide, ?_⟩
        intro h
        exact absurd h (by decide)
      · obtain ⟨m, _, rfl⟩ := scanFallback_some _ _ hf
        exact ⟨clamp700_length m, clamp700_marker m⟩
    · obtain ⟨m, _, rfl⟩ := scanStrong_some _ _ _ hs
      exact ⟨clamp700_length m, clamp700_marker m⟩

/-- Witness for C5 on a single 1507-char error line (the `ERROR:` prefix
plus 1500 `x`s): the result stays within 700 codepoints plus marker. -/
theorem claim5_witness :
    (extractBuildError [String.mk ('E' :: 'R' :: 'R' :: 'O' :: 'R' :: ':' :: ' '
        :: List.replicate 1500 'x')]).length ≤ 701 :=
  (claim5_extract_clamped _).1

/-- JS truthiness of a nullable number: `null` and `0` are falsy. -/
def truthyI : Option Int → Bool
  | none => false
  | some n => n != 0

/-- `parseDate`: empty/missing input gives `null`; otherwise the ambient
date parser (modeled as an explicit function, `none` standing for a
non-finite parse result) is consulted. -/
def parseDate (parse : String → Option Int) (iso : Option String) : Option Int :=
  if ostr iso = "" then none else parse (ostr iso)

/-- Left-pad with `0` to two characters (models `padStart(2, '0')`). -/
def pad2 (s : String) : String :=
  if s.length ≥ 2 then s else ⟨List.replicate (2 - s.length) '0' ++ s.data⟩

/-- `formatDurationMs`: the `!ms || ms <= 0` guard (which on integers is
`ms ≤ 0` or missing) yields the placeholder; otherwise round to seconds
and render `Ns` or `Mm SSs`. -/
def formatDurationMs : Option Int → String
  | none => "—"
  | some ms =>
    if ms ≤ 0 then "—"
    else
      let totalSec := (ms.toNat + 500) / 1000
      let m := totalSec / 60
      let s2 := totalSec % 60
      if m = 0 then toString s2 ++ "s"
      else toString m ++ "m " ++ pad2 (toString s2) ++ "s"

/-- The `payload?.createdAt` field. -/
def pCreatedAt (e : CFEvent) : Option String := e.payload.bind Payload.createdAt

/-- The `payload?.initializingAt` field. -/
def pInitializingAt (e : CFEvent) : Option String := e.payload.bind Payload.initializingAt

/-- The `payload?.runningAt` field. -/
def pRunningAt (e : CFEvent) : Option String := e.payload.bind Payload.runningAt

/-- The `payload?.stoppedAt` field. -/
def pStoppedAt (e : CFEvent) : Option String := e.payload.bind Payload.stoppedAt

/-- The effective running timestamp of `buildSlackBlocks`:
`parseDate(runningAt) ?? parseDate(initializingAt) ?? createdAt`. -/
def effRunningAt (parse : String → Option Int) (e : CFEvent) : Option Int :=
  ((parseDate parse (pRunningAt e)).orElse fun _ => parseDate parse (pInitializingAt e)).orElse
    fun _ => parseDate parse (pCreatedAt e)

/-- The millisecond duration of `buildSlackBlocks`:
`stoppedAt && runningAt ? stoppedAt - runningAt
 : (stoppedAt && createdAt ? stoppedAt - createdAt : null)`. -/
def durationMsOf (parse : String → Option Int) (e : CFEvent) : Option Int :=
  if truthyI (parseDate parse (pStoppedAt e)) && truthyI (effRunningAt parse e) then
    some ((parseDate parse (pStoppedAt e)).getD 0 - (effRunningAt parse e).getD 0)
  else if truthyI (parseDate parse (pStoppedAt e)) && truthyI (parseDate parse (pCreatedAt e)) then
    some ((parseDate parse (pStoppedAt e)).getD 0 - (parseDate parse (pCreatedAt e)).getD 0)
  else none

/-- The duration string displayed by `buildSlackBlocks`. -/
def durationStringOf (parse : String → Option Int) (e : CFEvent) : String :=
  formatDurationMs (durationMsOf parse e)

/-- Spec-side duration of the claim as stated: `stoppedAt − runningAt`
when both exist, else `stoppedAt − createdAt`, else the placeholder. -/
def claimDurationString (parse : String → Option Int) (e : CFEvent) : String :=
  match parseDate parse (pStoppedAt e), parseDate parse (pRunningAt e) with
  | some t2, some t1 => formatDurationMs (some (t2 - t1))
  | some t2, none =>
    (match parseDate parse (pCreatedAt e) with
     | some t0 => formatDurationMs (some (t2 - t0))
     | none => "—")
  | none, _ => "—"

/-- `truncate`: keep at most `max` codepoints, replacing the tail by the
ellipsis when longer. -/
def truncateStr (s : String) (max : Nat) : String :=
  if s = "" then "" else if s.length > max then strTake s (max - 1) ++ "…" else s

/-- `firstLine`: the text before the first newline, trimmed. -/
def firstLine (s : String) : String := strTrim ⟨s.data.takeWhile (fun c => c != '\n')⟩

/-- `shortSha`: the first seven characters of a commit hash. -/
def shortSha (s : String) : String := if s = "" then "" else strTake s 7

/-- `shortBuildId`: strip a leading `build-` and keep eight characters. -/
def shortBuildId (buildUuid : Option String) : String :=
  if ostr buildUuid = "" then ""
  else strTake (if strStarts (ostr buildUuid) "build-" then ⟨(ostr buildUuid).data.drop 6⟩
                else ostr buildUuid) 8

/-- The `payload?.buildTriggerMetadata` sub-record. -/
def metaOf (e : CFEvent) : Option TriggerMeta := e.payload.bind Payload.buildTriggerMetadata

/-- `getCommitUrl`: a GitHub/GitLab commit link when the repo, hash and
provider account are all present; unknown providers give `null`. -/
def getCommitUrl (e : CFEvent) : Option String :=
  if ostr ((metaOf e).bind TriggerMeta.repoName) = "" ∨
      ostr ((metaOf e).bind TriggerMeta.commitHash) = "" ∨
      ostr ((metaOf e).bind TriggerMeta.providerAccountName) = "" then none
  else if strLower (ostr ((metaOf e).bind TriggerMeta.providerType)) = "github" then
    some ("https://github.com/" ++ ostr ((metaOf e).bind TriggerMeta.providerAccountName) ++ "/" ++
      ostr ((metaOf e).bind TriggerMeta.repoName) ++ "/commit/" ++
      ostr ((metaOf e).bind TriggerMeta.commitHash))
  else if strLower (ostr ((metaOf e).bind TriggerMeta.providerType)) = "gitlab" then
    some ("https://gitlab.com/" ++ ostr ((metaOf e).bind TriggerMeta.providerAccountName) ++ "/" ++
      ostr ((metaOf e).bind TriggerMeta.repoName) ++ "/-/commit/" ++
      ostr ((metaOf e).bind TriggerMeta.commitHash))
  else none

/-- `getDashboardBuildUrl`: dashboard link from account id and build uuid,
with the worker-name fallback chain. -/
def getDashboardBuildUrl (e : CFEvent) : Option String :=
  if ostr (e.metadata.bind EventMeta.accountId) = "" ∨ ostr (e.payload.bind Payload.buildUuid) = "" then
    none
  else
    some ("https://dash.cloudflare.com/" ++ ostr (e.metadata.bind EventMeta.accountId) ++
      "/workers/services/view/" ++
      jsOr (ostr (e.source.bind SourceInfo.workerName))
        (jsOr (ostr ((metaOf e).bind TriggerMeta.repoName)) "worker") ++
      "/production/builds/" ++ ostr (e.payload.bind Payload.buildUuid))

/-- `classifyErrorHint`: substring-based remediation hints. -/
def classifyErrorHint (error : String) : Option String :=
  if strContains (strLower error) "no config file" || strContains (strLower error) "wrangler.(" ||
      strContains (strLower error) "wrangler.toml" then
    some "Likely config missing (add wrangler config)."
  else if strContains (strLower error) "entry-point" ||
      strContains (strLower error) "worker.js was not found" ||
      strContains (strLower error) ".open-next" then
    some "Likely missing build output (check adapter/build step)."
  else if strContains (strLower error) "module not found" ||
      strContains (strLower error) "cannot find module" then
    some "Likely dependency issue (install/build path)."
  else if strContains (strLower error) "command failed" || strStarts (strLower error) "failed:" then
    some "Build command failed (check build logs for the failing step)."
  else none

/-- An action button of the notification document. -/
structure SlackButton where
  label : String
  url : String
  style : Option String
deriving DecidableEq

/-- The structured notification document assembled by `buildSlackBlocks`. -/
structure SlackDoc where
  header : String
  fields : List String
  contextBits : List String
  errorText : Option String
  hint : Option String
  actions : List SlackButton
deriving DecidableEq

/-- The field group of the document (branch, commit, author, duration;
the duration field is always present). -/
def slackFields (branch sha7 author duration : String) (commitUrl : Option String) : List String :=
  (if branch != "" then ["*Branch*\n`" ++ branch ++ "`"] else []) ++
  (if sha7 != "" then
    ["*Commit*\n" ++ (if truthyS commitUrl then "<" ++ ostr commitUrl ++ "|" ++ sha7 ++ ">"
                      else "`" ++ sha7 ++ "`")]
   else []) ++
  (if author != "" then ["*Author*\n" ++ author] else []) ++
  ["*Duration*\n" ++ duration]

/-- The action-button group of the document: on success a primary
preview/worker button, then the dashboard button (danger-styled on
failure), then the commit button. -/
def slackActions (state : BuildState) (isProd : Bool)
    (previewUrl liveUrl dashUrl commitUrl : Option String) : List SlackButton :=
  (if state = .succeeded then
    (if !isProd && truthyS previewUrl then
      [{ label := "View Preview", url := ostr previewUrl, style := some "primary" }]
     else if isProd && truthyS liveUrl then
      [{ label := "View Worker", url := ostr liveUrl, style := some "primary" }]
     else [])
   else []) ++
  (if truthyS dashUrl then
    (if state = .failed then [{ label := "View Full Logs", url := ostr dashUrl, style := some "danger" }]
     else [{ label := "View Build", url := ostr dashUrl, style := none }])
   else []) ++
  (if truthyS commitUrl then [{ label := "View Commit", url := ostr commitUrl, style := none }] else [])

/-- `buildSlackBlocks`: assemble the uniform notification document from
the event, the enrichment URLs and the fetched logs. -/
def buildSlackBlocks (parse : String → Option Int) (e : CFEvent)
    (previewUrl liveUrl : Option String) (logs : List String) : SlackDoc :=
  let workerName := jsOr (ostr (e.source.bind SourceInfo.workerName))
    (jsOr (ostr ((metaOf e).bind TriggerMeta.repoName)) "Worker")
  let branch := ostr ((metaOf e).bind TriggerMeta.branch)
  let commitMsg := truncateStr (firstLine (ostr ((metaOf e).bind TriggerMeta.commitMessage))) 90
  let authorRaw := ostr ((metaOf e).bind TriggerMeta.author)
  let author := if strContains authorRaw "@" then ⟨authorRaw.data.takeWhile (fun c => c != '@')⟩
                else authorRaw
  let state := normalizeBuildState e
  let isProd := isProductionBranch (some branch)
  let envLabel := if isProd then "Production" else "Preview"
  let buildId := shortBuildId (e.payload.bind Payload.buildUuid)
  let sha7 := shortSha (ostr ((metaOf e).bind TriggerMeta.commitHash))
  let header :=
    match state with
    | .succeeded => "✅ " ++ workerName ++ " — " ++ envLabel ++ " deploy succeeded"
    | .failed => "❌ " ++ workerName ++ " — " ++ envLabel ++ " build failed"
    | .canceled => "⚠️ " ++ workerName ++ " — " ++ envLabel ++ " build canceled"
    | .unknown => "📢 " ++ workerName ++ " — build update"
  let contextBits :=
    (if commitMsg != "" then ["“" ++ commitMsg ++ "”"] else []) ++
    (if ostr ((metaOf e).bind TriggerMeta.buildTriggerSource) != "" then
      ["trigger: `" ++ ostr ((metaOf e).bind TriggerMeta.buildTriggerSource) ++ "`"] else []) ++
    (if buildId != "" then ["build: `" ++ buildId ++ "`"] else [])
  let err := if state = .failed then some (extractBuildError logs) else none
  { header := header,
    fields := slackFields branch sha7 author (durationStringOf parse e) (getCommitUrl e),
    contextBits := contextBits,
    errorText := err,
    hint := match err with | some er => classifyErrorHint er | none => none,
    actions := (slackActions state isProd previewUrl liveUrl (getDashboardBuildUrl e)
      (getCommitUrl e)).take 5 }

/-- A non-positive duration renders as the placeholder. -/
theorem formatDurationMs_nonpos (ms : Int) (h : ms ≤ 0) :
    formatDurationMs (some ms) = "—" := by
  show (if ms ≤ 0 then "—" else _) = "—"
  rw [if_pos h]

/-- The duration field is always present in the field group. -/
theorem duration_mem_fields (b s a d : String) (cu : Option String) :
    ("*Duration*\n" ++ d) ∈ slackFields b s a d cu := by
  simp [slackFields]

/-- C7 (amended): the document always displays a duration field; the
millisecond duration is `stoppedAt − r` where `r` is the first parseable
of `runningAt`, `initializingAt`, `createdAt`, when `stoppedAt` and `r`
are present and non-zero, else `stoppedAt − createdAt` when those are
present and non-zero, else missing; and the rendered string is the
explicit placeholder or the rendering of a strictly positive
millisecond count — never a negative or NaN-derived string. -/
theorem claim7_duration (parse : String → Option Int) (e : CFEvent) (pv lv : Option String)
    (logs : List String) :
    ("*Duration*\n" ++ durationStringOf parse e) ∈ (buildSlackBlocks parse e pv lv logs).fields ∧
      durationMsOf parse e =
        (if truthyI (parseDate parse (pStoppedAt e)) && truthyI (effRunningAt parse e) then
          some ((parseDate parse (pStoppedAt e)).getD 0 - (effRunningAt parse e).getD 0)
        else if truthyI (parseDate parse (pStoppedAt e)) &&
            truthyI (parseDate parse (pCreatedAt e)) then
          some ((parseDate parse (pStoppedAt e)).getD 0 - (parseDate parse (pCreatedAt e)).getD 0)
        else none) ∧
      (durationStringOf parse e = "—" ∨
        ∃ ms : Int, 0 < ms ∧ durationStringOf parse e = formatDurationMs (some ms)) := by
  refine ⟨duration_mem_fields _ _ _ _ _, rfl, ?_⟩
  rcases hms : durationMsOf parse e with _ | ms
  · left
    simp [durationStringOf, hms, formatDurationMs]
  · by_cases hpos : 0 < ms
    · right
      exact ⟨ms, hpos, by simp [durationStringOf, hms]⟩
    · left
      have hle : ms ≤ 0 := by omega
      rw [durationStringOf, hms]
      exact formatDurationMs_nonpos ms hle

/-- A date parser table for the duration counterexample. -/
def cexParse : String → Option Int := fun s =>
  if s = "iso-created" then some 1000
  else if s = "iso-init" then some 61000
  else if s = "iso-stopped" then some 200000
  else none

/-- An event with `createdAt` and `initializingAt` but no `runningAt`. -/
def cexEvent7 : CFEvent :=
  { type := some "cf.workersBuilds.worker.build.failed",
    payload := some { createdAt := some "iso-created", initializingAt := some "iso-init",
                      stoppedAt := some "iso-stopped" } }

/-- Witness for C7 at a concrete event. -/
theorem claim7_witness :
    ("*Duration*\n" ++ durationStringOf cexParse cexEvent7) ∈
      (buildSlackBlocks cexParse cexEvent7 none none []).fields :=
  (claim7_duration cexParse cexEvent7 none none []).1

/-- Counterexample for C7 as stated: when `runningAt` is absent but
`initializingAt` is present, the code renders
`stoppedAt − initializingAt` (here `2m 19s`), not the claimed
`stoppedAt − createdAt` (here `3m 19s`). -/
theorem claim7_counterexample :
    durationStringOf cexParse cexEvent7 ≠ claimDurationString cexParse cexEvent7 := by
  decide

/-- On a succeeded production build with a truthy live URL, the action
group keeps exactly one primary button, the worker link. -/
theorem slackActions_one_primary (pv du cu : Option String) (u : String) (hu : u ≠ "") :
    (((slackActions .succeeded true pv (some u) du cu).take 5).countP
        (fun b => b.style == some "primary") = 1) ∧
      ∀ b ∈ (slackActions .succeeded true pv (some u) du cu).take 5,
        b.style = some "primary" → b.url = u ∧ b.label = "View Worker" := by
  have hu2 : truthyS (some u) = true := by simp [truthyS, hu]
  unfold slackActions
  cases hd : truthyS du <;> cases hc : truthyS cu <;>
    cases st : (slackActions .succeeded true pv (some u) du cu) <;>
      simp_all [hu2, ostr, List.countP_cons, List.countP_nil]

/-- C8 (amended): for a succeeded event on a production branch whose live
URL is non-null and non-empty, the document's button set contains
exactly one primary-styled button, and any primary button in it is the
`View Worker` button pointing at the live URL. -/
theorem claim8_primary_action (parse : String → Option Int) (e : CFEvent) (pv : Option String)
    (logs : List String) (u : String)
    (hs : normalizeBuildState e = .succeeded)
    (hp : isProductionBranch (some (ostr ((metaOf e).bind TriggerMeta.branch))) = true)
    (hu : u ≠ "") :
    ((buildSlackBlocks parse e pv (some u) logs).actions.countP
        (fun b => b.style == some "primary") = 1) ∧
      ∀ b ∈ (buildSlackBlocks parse e pv (some u) logs).actions,
        b.style = some "primary" → b.url = u ∧ b.label = "View Worker" := by
  have hact : (buildSlackBlocks parse e pv (some u) logs).actions =
      (slackActions .succeeded true pv (some u) (getDashboardBuildUrl e) (getCommitUrl e)).take 5 := by
    show (slackActions (normalizeBuildState e)
        (isProductionBranch (some (ostr ((metaOf e).bind TriggerMeta.branch)))) pv (some u)
        (getDashboardBuildUrl e) (getCommitUrl e)).take 5 = _
    rw [hs, hp]
  rw [hact]
  exact slackActions_one_primary pv _ _ u hu

/-- A succeeded production event with full identifiers. -/
def cexEvent8 : CFEvent :=
  { type := some "cf.workersBuilds.worker.build.succeeded",
    source := some { workerName := some "w" },
    payload := some { buildUuid := some "build-123",
                      buildTriggerMetadata := some { branch := some "main" } },
    metadata := some { accountId := some "acct" } }

/-- Witness for C8 at a concrete succeeded production event. -/
theorem claim8_witness :
    ((buildSlackBlocks (fun _ => none) cexEvent8 none (some "https://w.sub.workers.dev") []).actions.countP
        (fun b => b.style == some "primary") = 1) :=
  (claim8_primary_action (fun _ => none) cexEvent8 none [] "https://w.sub.workers.dev"
    (by decide) (by decide) (by decide)).1

/-- Counterexample for C8 as stated: the empty string is a non-null live
URL, yet on a succeeded production event the document then contains no
primary button at all (the empty URL is falsy, so the worker button is
dropped). -/
theorem claim8_counterexample :
    ¬ ((buildSlackBlocks (fun _ => none) cexEvent8 none (some "") []).actions.countP
        (fun b => b.style == some "primary") = 1) := by
  decide

/-- The worker configuration; either secret may be missing. -/
structure EnvCfg where
  slackWebhookUrl : Option String := none
  cloudflareApiToken : Option String := none

/-- Observable steps of one message's processing, in order. -/
inductive QAction where
  | ack
  | urlsFetched
  | logsFetched
  | docBuilt
  | sentToSlack
deriving DecidableEq

/-- The per-message external calls, each of which may either return a
value or throw (`Except.error`): the preview/live URL enrichment, the
log enrichment, and the Slack webhook POST (whose `Bool` is `res.ok`). -/
structure MsgOracle where
  fetchUrls : Except Unit (Option String × Option String) := .error ()
  fetchLogs : Except Unit (List String) := .error ()
  slackPost : Except Unit Bool := .error ()

/-- The guarded preview/live URL enrichment step of the handler: when
the guard holds, attempt the call (a throw is caught and degrades to no
URLs); the first component records whether a call was made. -/
def urlStepOf (cond : Bool) (fu : Except Unit (Option String × Option String)) :
    List QAction × Option String × Option String :=
  if cond then
    match fu with
    | .ok urls => ([.urlsFetched], urls.1, urls.2)
    | .error _ => ([.urlsFetched], none, none)
  else ([], none, none)

/-- The guarded log enrichment step of the handler: when the guard
holds, attempt the call (a throw is caught and degrades to no logs). -/
def logStepOf (cond : Bool) (fl : Except Unit (List String)) : List QAction × List String :=
  if cond then
    match fl with
    | .ok ls => ([.logsFetched], ls)
    | .error _ => ([.logsFetched], [])
  else ([], [])

/-- The body of the `queue` handler's per-message `try` block: validate
the structure, drop lifecycle events, conditionally enrich (failures
caught and degraded to no data), build the document, post it (a throw is
caught by the outer handler), and acknowledge in every path. -/
def processMessage (parse : String → Option Int) (env : EnvCfg) (orc : MsgOracle)
    (body : Option CFEvent) : List QAction :=
  match body with
  | none => [.ack]
  | some ev =>
    if !truthyS ev.type || ev.payload.isNone || ev.metadata.isNone then [.ack]
    else if strContains (strLower (ostr ev.type)) "started" ||
        strContains (strLower (ostr ev.type)) "queued" then [.ack]
    else
      let state := normalizeBuildState ev
      let accountId := ostr (ev.metadata.bind EventMeta.accountId)
      let buildUuid := ostr (ev.payload.bind Payload.buildUuid)
      let urlStep := urlStepOf (state = .succeeded && accountId != "" && buildUuid != "" &&
        truthyS env.cloudflareApiToken) orc.fetchUrls
      let logStep := logStepOf (state = .failed && accountId != "" && buildUuid != "" &&
        truthyS env.cloudflareApiToken) orc.fetchLogs
      let _doc := buildSlackBlocks parse ev urlStep.2.1 urlStep.2.2 logStep.2
      match orc.slackPost with
      | .ok _ => urlStep.1 ++ logStep.1 ++ [.docBuilt, .sentToSlack, .ack]
      | .error _ => urlStep.1 ++ logStep.1 ++ [.docBuilt, .ack]

/-- The `queue` batch handler: with no webhook configured every message
is acknowledged untouched; otherwise the messages are processed in
order, one trace per message. -/
def queueHandler (parse : String → Option Int) (env : EnvCfg)
    (batch : List (Option CFEvent × MsgOracle)) : List (List QAction) :=
  if truthyS env.slackWebhookUrl then batch.map fun m => processMessage parse env m.2 m.1
  else batch.map fun _ => [.ack]

/-- The URL enrichment step never acknowledges. -/
theorem urlStepOf_no_ack (cond : Bool) (fu : Except Unit (Option String × Option String)) :
    (urlStepOf cond fu).1.count QAction.ack = 0 := by
  unfold urlStepOf
  cases cond
  · rfl
  · rcases fu with _ | _ <;> rfl

/-- The log enrichment step never acknowledges. -/
theorem logStepOf_no_ack (cond : Bool) (fl : Except Unit (List String)) :
    (logStepOf cond fl).1.count QAction.ack = 0 := by
  unfold logStepOf
  cases cond
  · rfl
  · rcases fl with _ | _ <;> rfl

/-- Every processing path acknowledges exactly once. -/
theorem processMessage_ack_once (parse : String → Option Int) (env : EnvCfg) (orc : MsgOracle)
    (body : Option CFEvent) :
    (processMessage parse env orc body).count QAction.ack = 1 := by
  rcases body with _ | ev
  · rfl
  · simp only [processMessage]
    by_cases h1 : (!truthyS ev.type || ev.payload.isNone || ev.metadata.isNone) = true
    · rw [if_pos h1]; rfl
    · rw [if_neg h1]
      by_cases h2 : (strContains (strLower (ostr ev.type)) "started" ||
          strContains (strLower (ostr ev.type)) "queued") = true
      · rw [if_pos h2]; rfl
      · rw [if_neg h2]
        rcases hp : orc.slackPost with u | b <;>
          simp only [hp, List.count_append, urlStepOf_no_ack, logStepOf_no_ack] <;> rfl

/-- C9: with the webhook configured, every message of any batch —
malformed, lifecycle-dropped, enrichment-failing, delivery-failing or
delivery-throwing alike — is acknowledged exactly once; with the
webhook missing, every message is acknowledged with no other step. -/
theorem claim9_ack_policy (parse : String → Option Int) (env : EnvCfg)
    (batch : List (Option CFEvent × MsgOracle)) :
    (truthyS env.slackWebhookUrl = true →
      (queueHandler parse env batch).all (fun tr => tr.count QAction.ack == 1) = true) ∧
      (queueHandler parse env batch).length = batch.length ∧
      (truthyS env.slackWebhookUrl = false →
        queueHandler parse env batch = batch.map fun _ => [QAction.ack]) := by
  refine ⟨?_, ?_, ?_⟩
  · intro hw
    unfold queueHandler
    rw [if_pos hw]
    rw [List.all_eq_true]
    intro tr htr
    obtain ⟨m, _, rfl⟩ := List.mem_map.mp htr
    simp [processMessage_ack_once]
  · unfold queueHandler
    split <;> simp
  · intro hw
    unfold queueHandler
    rw [if_neg (by simp [hw])]

/-- A demonstration batch: a malformed body, a lifecycle event, a failed
build whose enrichment and delivery both throw, and a succeeded build. -/
def demoBatch : List (Option CFEvent × MsgOracle) :=
  [(none, {}),
   ({ type := some "cf.workersBuilds.worker.build.started",
      payload := some {}, metadata := some {} : CFEvent}, {}),
   ({ type := some "cf.workersBuilds.worker.build.failed",
      payload := some { buildUuid := some "build-1" },
      metadata := some { accountId := some "a" } : CFEvent}, {}),
   ({ type := some "cf.workersBuilds.worker.build.succeeded",
      payload := some { buildUuid := some "build-2" },
      metadata := some { accountId := some "a" } : CFEvent},
    { fetchUrls := .ok (none, some "https://w.x.workers.dev"), fetchLogs := .ok [],
      slackPost := .ok true })]

/-- Witness for C9 on the demonstration batch, with and without the
webhook configured. -/
theorem claim9_witness :
    ((queueHandler (fun _ => none) { slackWebhookUrl := some "https://hooks.example" } demoBatch).all
        (fun tr => tr.count QAction.ack == 1) = true) ∧
      queueHandler (fun _ => none) { slackWebhookUrl := none } demoBatch =
        demoBatch.map fun _ => [QAction.ack] :=
  ⟨(claim9_ack_policy (fun _ => none) { slackWebhookUrl := some "https://hooks.example" }
      demoBatch).1 (by decide),
   (claim9_ack_policy (fun _ => none) { slackWebhookUrl := none } demoBatch).2.2 (by decide)⟩

/-- C10: a structurally valid event whose lower-cased type contains
`started` or `queued` is acknowledged and nothing else happens: no
enrichment call, no document build, no webhook delivery; and in a batch
its trace is exactly the single acknowledgment. -/
theorem claim10_lifecycle_dropped (parse : String → Option Int) (env : EnvCfg) (orc : MsgOracle)
    (ev : CFEvent) (rest : List (Option CFEvent × MsgOracle))
    (hw : truthyS env.slackWebhookUrl = true)
    (ht : truthyS ev.type = true)
    (hpay : ev.payload.isNone = false)
    (hmeta : ev.metadata.isNone = false)
    (hlife : (strContains (strLower (ostr ev.type)) "started" ||
      strContains (strLower (ostr ev.type)) "queued") = true) :
    processMessage parse env orc (some ev) = [QAction.ack] ∧
      queueHandler parse env ((some ev, orc) :: rest) =
        [QAction.ack] :: queueHandler parse env rest := by
  have hmsg : processMessage parse env orc (some ev) = [QAction.ack] := by
    simp only [processMessage]
    rw [if_neg (by simp [ht, hpay, hmeta]), if_pos hlife]
  refine ⟨hmsg, ?_⟩
  unfold queueHandler
  rw [if_pos hw]
  simp only [List.map_cons, hmsg]
  rw [if_pos hw]

/-- Witness for C10 on a concrete started event. -/
theorem claim10_witness :
    processMessage (fun _ => none) { slackWebhookUrl := some "https://hooks.example" } {}
        (some { type := some "cf.workersBuilds.worker.build.started",
                payload := some {}, metadata := some {} }) = [QAction.ack] :=
  (claim10_lifecycle_dropped (fun _ => none) { slackWebhookUrl := some "https://hooks.example" } {}
    { type := some "cf.workersBuilds.worker.build.started", payload := some {}, metadata := some {} }
    [] (by decide) (by decide) (by decide) (by decide) (by decide)).1

end WorkersBuilds
